import Mathlib

/-!
Verification of the `pyrelease` release-automation tool against its design
specification.  The program text lives in `pyreleaser/cli.py`; every
definition below is a shallow embedding of a function of that file (file
contents and process outputs are modelled as `List Char`, mirroring Python
strings as sequences of characters; whitespace classes are modelled over
the ASCII range used by the tool).
-/

namespace Pyrelease

/-- Whitespace characters recognised by Python for `str` values: the
predicate behind both `str.strip()` and the `\s` class of a `str` regular
expression (CPython's unicode whitespace: the ASCII controls 09-0D and
1C-1F, space, NEL, NBSP, OGHAM SPACE MARK, the U+2000 block, LINE and
PARAGRAPH SEPARATOR, NARROW NBSP, MMSP and IDEOGRAPHIC SPACE). -/
def isSpace (c : Char) : Bool :=
  (0x09 ≤ c.toNat ∧ c.toNat ≤ 0x0d) ∨ (0x1c ≤ c.toNat ∧ c.toNat ≤ 0x1f) ∨
    c.toNat = 0x20 ∨ c.toNat = 0x85 ∨ c.toNat = 0xa0 ∨ c.toNat = 0x1680 ∨
    (0x2000 ≤ c.toNat ∧ c.toNat ≤ 0x200a) ∨ c.toNat = 0x2028 ∨
    c.toNat = 0x2029 ∨ c.toNat = 0x202f ∨ c.toNat = 0x205f ∨ c.toNat = 0x3000

/-- Python `str.strip()` as used by `capture` in `cli.py`: remove leading and
trailing whitespace. -/
def pyStrip (s : List Char) : List Char :=
  ((s.dropWhile isSpace).reverse.dropWhile isSpace).reverse

/-- Universal-newline translation performed by Python text mode when
`fileinput.input` reads `setup.py`: `\r\n` and a lone `\r` are read as
`\n`. -/
def univNewlines : List Char → List Char
  | [] => []
  | '\r' :: '\n' :: cs => '\n' :: univNewlines cs
  | '\r' :: cs => '\n' :: univNewlines cs
  | c :: cs => c :: univNewlines cs

/-- Split a file content into Python file-iteration lines: each line keeps its
terminating newline; a final segment without a newline is a line of its own.
This is how `fileinput.input` feeds lines (after universal-newline
translation) to `update_version_setup_py`. -/
def splitPy : List Char → List (List Char)
  | [] => []
  | c :: cs =>
    if c = '\n' then ['\n'] :: splitPy cs
    else
      match splitPy cs with
      | [] => [[c]]
      | l :: ls => (c :: l) :: ls

/-- The test `re.match(r'VERSION\s*=', line)` of `cli.py`: the line starts with
the identifier `VERSION`, followed by optional whitespace and `=`. -/
def matchesVersionAssign (l : List Char) : Bool :=
  if l.take 7 = "VERSION".data then
    match (l.drop 7).dropWhile isSpace with
    | '=' :: _ => true
    | _ => false
  else false

/-- The replacement line printed by `update_version_setup_py` (the `print`
call appends the newline). -/
def canonicalVersionLine (version : List Char) : List Char :=
  "VERSION = \x27".data ++ version ++ "\x27  # maintained by release tool\n".data

/-- Per-line action of the rewrite loop of `update_version_setup_py`. -/
def rewriteLine (version l : List Char) : List Char :=
  if matchesVersionAssign l then canonicalVersionLine version else l

/-- The loop body of `update_version_setup_py`: thread the `changed` flag
through the lines in order, emitting either the canonical line or the
original line. -/
def updateLines (version : List Char) (changed : Bool) :
    List (List Char) → List Char × Bool
  | [] => ([], changed)
  | l :: ls =>
    if matchesVersionAssign l then
      let r := updateLines version true ls
      (canonicalVersionLine version ++ r.1, r.2)
    else
      let r := updateLines version changed ls
      (l ++ r.1, r.2)

/-- `update_version_setup_py(version)` of `cli.py`, as a pure text transform:
given the content of `setup.py`, return the rewritten content and the
`changed` flag.  `fileinput` reads the file in text mode, so the loop sees
the universal-newline translation of the content, and what `print` writes
back (on a POSIX system) is the translated text with matching lines
replaced. -/
def update_version_setup_py (version content : List Char) : List Char × Bool :=
  updateLines version false (splitPy (univNewlines content))

/-- The rewrite policy asserted by the specification for claim C1: replace
only the FIRST line matching the version-assignment pattern and leave all
later lines, matching or not, untouched.  Stated from the specification
words, to be compared with `update_version_setup_py`. -/
def rewriteFirstOnly (version : List Char) : List (List Char) → List (List Char)
  | [] => []
  | l :: ls =>
    if matchesVersionAssign l then canonicalVersionLine version :: ls
    else l :: rewriteFirstOnly version ls

/-- The literal `refs/tags/` scanned for by the regular expression
`refs/tags/([^^\n]+)` in `get_git_tags`. -/
def refsTagsMarker : List Char := "refs/tags/".data

/-- Longest run of characters other than `^` and newline: the greedy group
`([^^\n]+)` of the tag-extraction pattern (its nonemptiness is checked at the
use sites). -/
def takeTagName (s : List Char) : List Char :=
  s.takeWhile (fun c => ¬ (c = '^' ∨ c = '\n'))

/-- The scan performed by `re.findall(r'refs/tags/([^^\n]+)', output)` in
`get_git_tags`: left-to-right, and after a successful match the scan resumes
past the matched text (non-overlapping matches); where no match starts, the
scan advances one character.  The first argument is fuel bounding the number
of scan steps; each step consumes at least one character, so any fuel of at
least the text length gives the full scan. -/
def findTagsAux : Nat → List Char → List (List Char)
  | _, [] => []
  | 0, _ :: _ => []
  | fuel + 1, c :: cs =>
    if (c :: cs).take refsTagsMarker.length = refsTagsMarker then
      let name := takeTagName ((c :: cs).drop refsTagsMarker.length)
      if name = [] then findTagsAux fuel cs
      else
        name :: findTagsAux fuel (((c :: cs).drop refsTagsMarker.length).drop name.length)
    else findTagsAux fuel cs

/-- The full scan of a ref-listing text. -/
def findTags (s : List Char) : List (List Char) := findTagsAux s.length s

/-- Reading of the specification for claim C7, stated from its words: for
EVERY occurrence of `refs/tags/` in the text, the (nonempty) substring after
it up to but not including the next newline or `^` is a tag name. -/
def specTagList (s : List Char) : List (List Char) :=
  match s with
  | [] => []
  | c :: cs =>
    (if (c :: cs).take refsTagsMarker.length = refsTagsMarker then
       let name := takeTagName ((c :: cs).drop refsTagsMarker.length)
       if name = [] then [] else [name]
     else []) ++ specTagList cs

/-! ## Processes, environment and the release orchestrator -/

/-- Outcome of one external process: its exit status and what it wrote to
stdout (empty unless the caller captured it). -/
structure ProcResult where
  exitCode : Nat
  stdout : List Char
deriving DecidableEq

/-- The ambient world `release` runs against: one `ProcResult` per external
invocation of `cli.py`, the existence and content of `setup.py`. -/
structure Env where
  whichTwine : ProcResult
  revParse : ProcResult
  diffIndex : ProcResult
  showRef : ProcResult
  lsRemote : ProcResult
  setupVersion : ProcResult
  setupPyExists : Bool
  setupPyContent : List Char
  rmDist : ProcResult
  buildDist : ProcResult
  gitAdd : ProcResult
  gitCommit : ProcResult
  gitTag : ProcResult
  gitPush : ProcResult
  twineUpload : ProcResult
deriving DecidableEq

/-- The options structure produced by the argument parser in `main`. -/
structure Options where
  version : List Char
  only_on : Option (List Char)
  push : Bool
  upload : Bool
deriving DecidableEq

/-- The two error kinds: `Error` raised by `release` itself, and
`CalledProcessError` raised by `subprocess.run(check=True)`. -/
inductive Err where
  | domain (msg : List Char)
  | processFailure (argv : List (List Char)) (exitCode : Nat)
deriving DecidableEq

deriving instance DecidableEq for Except

/-- Observable side effects of one run: each external process spawned
(recording whether its stdout was captured with `stdout=PIPE`), the
`pathlib` existence check, and the in-place rewrite of `setup.py`. -/
inductive Event where
  | whichTwine (captures : Bool)
  | revParse (captures : Bool)
  | diffIndex (captures : Bool)
  | showRef (captures : Bool)
  | lsRemote (captures : Bool)
  | setupVersion (captures : Bool)
  | setupExists
  | rewriteSetup (newContent : List Char)
  | rmDist (captures : Bool)
  | buildDist (captures : Bool)
  | gitAdd (captures : Bool)
  | gitCommit (captures : Bool)
  | gitTag (captures : Bool)
  | gitPush (captures : Bool)
  | twineUpload (captures : Bool)
deriving DecidableEq

/-- Kind of an event, with the payload forgotten. -/
inductive EKind where
  | whichTwineK | revParseK | diffIndexK | showRefK | lsRemoteK
  | setupVersionK | setupExistsK | rewriteK | rmK | buildK
  | addK | commitK | tagK | pushK | uploadK
deriving DecidableEq

/-- Forget an event payload. -/
def kindOf : Event → EKind
  | .whichTwine _ => .whichTwineK
  | .revParse _ => .revParseK
  | .diffIndex _ => .diffIndexK
  | .showRef _ => .showRefK
  | .lsRemote _ => .lsRemoteK
  | .setupVersion _ => .setupVersionK
  | .setupExists => .setupExistsK
  | .rewriteSetup _ => .rewriteK
  | .rmDist _ => .rmK
  | .buildDist _ => .buildK
  | .gitAdd _ => .addK
  | .gitCommit _ => .commitK
  | .gitTag _ => .tagK
  | .gitPush _ => .pushK
  | .twineUpload _ => .uploadK

/-- Whether an event spawned a process that captured its stdout
(`none` for the filesystem events). -/
def capturesOf : Event → Option Bool
  | .whichTwine b => some b
  | .revParse b => some b
  | .diffIndex b => some b
  | .showRef b => some b
  | .lsRemote b => some b
  | .setupVersion b => some b
  | .setupExists => none
  | .rewriteSetup _ => none
  | .rmDist b => some b
  | .buildDist b => some b
  | .gitAdd b => some b
  | .gitCommit b => some b
  | .gitTag b => some b
  | .gitPush b => some b
  | .twineUpload b => some b

/-- A computation result together with the trace of side effects it
performed, in order. -/
def Run (α : Type) := Except Err α × List Event

/-- Sequencing with fail-fast semantics: an exception skips the rest of the
function body, keeping the effects already performed. -/
def andThen {α β : Type} (x : Run α) (f : α → Run β) : Run β :=
  match x with
  | (.error e, t) => (.error e, t)
  | (.ok a, t) => ((f a).1, t ++ (f a).2)

/-- Prepend already-performed effects to a computation result. -/
def mapTrace {α : Type} (t : List Event) (p : Run α) : Run α := (p.1, t ++ p.2)

/-- Argument vectors of the external invocations in `cli.py`. -/
def revParseArgv : List (List Char) :=
  ["git".data, "rev-parse".data, "--abbrev-ref".data, "HEAD".data]

def whichTwineArgv : List (List Char) := ["which".data, "twine".data]

def diffIndexArgv : List (List Char) :=
  ["git".data, "diff-index".data, "--quiet".data, "HEAD".data, "--".data]

def showRefArgv : List (List Char) := ["git".data, "show-ref".data, "--tags".data]

def lsRemoteArgv : List (List Char) :=
  ["git".data, "ls-remote".data, "--tags".data, "origin".data]

def setupVersionArgv : List (List Char) :=
  ["python".data, "setup.py".data, "--version".data]

def rmDistArgv : List (List Char) := ["rm".data, "-rf".data, "dist".data]

def buildArgv : List (List Char) :=
  ["python".data, "setup.py".data, "sdist".data, "bdist_wheel".data]

def gitAddArgv : List (List Char) := ["git".data, "add".data, "setup.py".data]

def gitCommitArgv (version : List Char) : List (List Char) :=
  ["git".data, "commit".data, "-m".data, "Release ".data ++ version]

def gitTagArgv (version : List Char) : List (List Char) :=
  ["git".data, "tag".data, "-a".data, "-m".data,
   "Release tag for ".data ++ version, version]

def gitPushArgv : List (List Char) := ["git".data, "push".data, "--follow-tags".data]

def twineUploadArgv : List (List Char) :=
  ["twine".data, "upload".data, "dist/*".data]

/-- `subprocess.run(argv, check=check, ...)`: the process is spawned (event
emitted), then a non-zero exit raises `CalledProcessError` when `check` is
set. -/
def runProc (ev : Bool → Event) (argv : List (List Char)) (r : ProcResult)
    (check captures : Bool) : Run ProcResult :=
  if check ∧ r.exitCode ≠ 0 then
    (.error (.processFailure argv r.exitCode), [ev captures])
  else (.ok r, [ev captures])

/-- The `capture` helper of `cli.py`: run with `stdout=PIPE` and return the
stripped stdout. -/
def capture (ev : Bool → Event) (argv : List (List Char)) (r : ProcResult)
    (check : Bool) : Run (List Char) :=
  andThen (runProc ev argv r check true) (fun r => (.ok (pyStrip r.stdout), []))

/-- `get_git_branch()` of `cli.py`. -/
def get_git_branch (env : Env) : Run (List Char) :=
  capture .revParse revParseArgv env.revParse true

/-- `get_git_tags(remote)` of `cli.py`: list refs (strictly for the remote,
leniently for local refs), extract the tag names and deduplicate them. -/
def get_git_tags (env : Env) (remote : Bool) : Run (Finset (List Char)) :=
  if remote then
    andThen (capture .lsRemote lsRemoteArgv env.lsRemote true)
      (fun out => (.ok (findTags out).toFinset, []))
  else
    andThen (capture .showRef showRefArgv env.showRef false)
      (fun out => (.ok (findTags out).toFinset, []))

/-- `is_git_clean()` of `cli.py`. -/
def is_git_clean (env : Env) : Run Bool :=
  andThen (runProc .diffIndex diffIndexArgv env.diffIndex false true)
    (fun r => (.ok (r.exitCode == 0), []))

/-- `read_version_setup_py()` of `cli.py`. -/
def read_version_setup_py (env : Env) : Run (List Char) :=
  capture .setupVersion setupVersionArgv env.setupVersion true

/-- `is_twine_installed()` of `cli.py` (no `stdout=PIPE`: output passes
through). -/
def is_twine_installed (env : Env) : Run Bool :=
  andThen (runProc .whichTwine whichTwineArgv env.whichTwine false false)
    (fun r => (.ok (r.exitCode == 0), []))

/-- The `pathlib.Path(\x27setup.py\x27).exists()` check. -/
def setupExistsCheck (env : Env) : Run Bool :=
  (.ok env.setupPyExists, [.setupExists])

/-- The call to `update_version_setup_py` inside `release`: `fileinput`
rewrites the file in place (even when no line changed) and the `changed`
flag is returned. -/
def rewriteStep (version_string : List Char) (env : Env) : Run Bool :=
  (.ok (update_version_setup_py version_string env.setupPyContent).2,
   [.rewriteSetup (update_version_setup_py version_string env.setupPyContent).1])

/-- Error messages raised by `release` in `cli.py`. -/
def versionMsg : List Char := "A version can\x27t begin with a v".data

def twineMsg : List Char := "twine is not installed".data

def branchMsg (wanted current : List Char) : List Char :=
  "not on the ".data ++ wanted ++ " branch. (".data ++ current ++ ")".data

def uncommitedMsg : List Char := "uncommited files".data

def localTagMsg (version : List Char) : List Char :=
  "tag already exists locally (".data ++ version ++ ")".data

def remoteTagMsg (version : List Char) : List Char :=
  "tag already exists remotely (".data ++ version ++ ")".data

def missingSetupMsg : List Char := "missing setup.py file".data

def alreadyCurrentMsg : List Char := "already the current version".data

def failedUpdateMsg : List Char := "failed to update setup.py".data

def failedBuildMsg : List Char := "failed to build distribution".data

/-- The upload-precondition step of `release`: when `--upload` was given,
require the publishing tool on the path. -/
def twineStage (opts : Options) (env : Env) : Run Unit :=
  if opts.upload then
    andThen (is_twine_installed env) (fun installed =>
      if installed then (.ok (), [])
      else (.error (.domain twineMsg), []))
  else (.ok (), [])

/-- The branch-precondition step of `release`: when `--only-on` carries a
non-empty branch name (Python truthiness), require the current branch to
match it. -/
def branchStage (opts : Options) (env : Env) : Run Unit :=
  match opts.only_on with
  | some wanted =>
    if wanted = [] then (.ok (), [])
    else
      andThen (get_git_branch env) (fun current =>
        if current ≠ wanted then
          (.error (.domain (branchMsg wanted current)), [])
        else (.ok (), []))
  | none => (.ok (), [])

/-- The body of `release` from the cleanliness check onward, in source
order: cleanliness, local tag, remote tag, `setup.py` presence, declared
version, rewrite, build, commit, tag, push, upload. -/
def releaseMain (opts : Options) (env : Env) : Run Unit :=
  let version := 'v' :: opts.version
  andThen (is_git_clean env) (fun clean =>
    andThen (if clean then (.ok (), [])
             else (.error (.domain uncommitedMsg), [])) (fun _ =>
    andThen (get_git_tags env false) (fun localTags =>
    andThen (if version ∈ localTags then
               (.error (.domain (localTagMsg version)), [])
             else (.ok (), [])) (fun _ =>
    andThen (get_git_tags env true) (fun remoteTags =>
    andThen (if version ∈ remoteTags then
               (.error (.domain (remoteTagMsg version)), [])
             else (.ok (), [])) (fun _ =>
    andThen (setupExistsCheck env) (fun setupThere =>
    andThen (if setupThere then (.ok (), [])
             else (.error (.domain missingSetupMsg), [])) (fun _ =>
    andThen (read_version_setup_py env) (fun declared =>
    andThen (if opts.version = declared then
               (.error (.domain alreadyCurrentMsg), [])
             else (.ok (), [])) (fun _ =>
    andThen (rewriteStep opts.version env) (fun changed =>
    andThen (if changed then (.ok (), [])
             else (.error (.domain failedUpdateMsg), [])) (fun _ =>
    andThen (runProc .rmDist rmDistArgv env.rmDist true false) (fun _ =>
    andThen (runProc .buildDist buildArgv env.buildDist false true) (fun built =>
    andThen (if built.exitCode ≠ 0 then
               (.error (.domain failedBuildMsg), [])
             else (.ok (), [])) (fun _ =>
    andThen (runProc .gitAdd gitAddArgv env.gitAdd true false) (fun _ =>
    andThen (runProc .gitCommit (gitCommitArgv version) env.gitCommit true false) (fun _ =>
    andThen (runProc .gitTag (gitTagArgv version) env.gitTag true false) (fun _ =>
    andThen (if opts.push then
               andThen (runProc .gitPush gitPushArgv env.gitPush true false)
                 (fun _ => (.ok (), []))
             else (.ok (), [])) (fun _ =>
    (if opts.upload then
       andThen (runProc .twineUpload twineUploadArgv env.twineUpload true false)
         (fun _ => (.ok (), []))
     else (.ok (), [])))))))))))))))))))))

/-- `release(options)` of `cli.py`, step by step in source order.  The
`title` banners only print to stdout and are not modelled. -/
def release (opts : Options) (env : Env) : Run Unit :=
  if opts.version.take 1 = ['v'] then (.error (.domain versionMsg), [])
  else
    andThen (twineStage opts env) (fun _ =>
    andThen (branchStage opts env) (fun _ =>
    releaseMain opts env))

/-! ## CLI surface -/

/-- Result of the argument-parsing phase of `main`. -/
inductive ParseResult where
  | parseError
  | parsed (opts : Options)
deriving DecidableEq

/-- Exit code of the whole invocation together with the strings printed to
stderr (one list entry per print call). -/
structure MainOutcome where
  exitCode : Nat
  stderrPrints : List (List Char)
deriving DecidableEq

/-- Modelled from the spec: the argument parser (Python `argparse`, an
external collaborator not re-specified) exits with code 2 on a parsing
error, printing to stderr a message mentioning the required arguments. -/
def parseFailureOutcome : MainOutcome :=
  ⟨2, ["the following arguments are required: version".data]⟩

/-- Modelled from the spec: an interruption signal during execution
(`KeyboardInterrupt`) is caught by `main` and turned into exit code 1 with
no message printed. -/
def interruptOutcome : MainOutcome := ⟨1, []⟩

/-- Python `repr` of a string with the default quote. -/
def pyReprStr (s : List Char) : List Char := '\x27' :: s ++ ['\x27']

/-- Python rendering of a list of strings, as interpolated into the
`CalledProcessError` message. -/
def pyReprList (xs : List (List Char)) : List Char :=
  '[' :: (List.intercalate ", ".data (xs.map pyReprStr)) ++ [']']

/-- `str(err)` for the two exception kinds caught in `main`: the `Error`
message itself, or the `CalledProcessError` rendering of the Python
standard library. -/
def errText : Err → List Char
  | .domain msg => msg
  | .processFailure argv code =>
      "Command \x27".data ++ pyReprList argv
        ++ "\x27 returned non-zero exit status ".data
        ++ (toString code).data ++ ".".data

/-- The single fatal line `main` prints to stderr on a caught exception
(argument of the print call; print itself appends one more newline). -/
def fatalLine (msg : List Char) : List Char :=
  '\n' :: "💥  Fatal: ".data ++ msg ++ ['\n']

/-- `main()` of `cli.py`: parse, run `release`, and map the outcome to an
exit code and stderr output.  Success falls through to exit code 0; a caught
`Error` or `CalledProcessError` prints the fatal line and exits 1; an
interruption exits 1 silently. -/
def main (p : ParseResult) (interrupted : Bool) (env : Env) : MainOutcome :=
  match p with
  | .parseError => parseFailureOutcome
  | .parsed opts =>
    if interrupted then interruptOutcome
    else
      match (release opts env).1 with
      | .ok _ => ⟨0, []⟩
      | .error e => ⟨1, [fatalLine (errText e)]⟩

/-! ## Auxiliary definitions for the verification -/

/-- A well-formed line chunk: nonempty, with no newline before its last
character.  The lines produced by `splitPy` have this shape. -/
def lineChunk (l : List Char) : Prop :=
  l ≠ [] ∧ ∀ c ∈ l.dropLast, c ≠ '\n'

/-- Well-formed line decomposition: every chunk is a `lineChunk` and every
chunk except the last ends with a newline. -/
def ChunksOk : List (List Char) → Prop
  | [] => True
  | [l] => lineChunk l
  | l :: ls => lineChunk l ∧ l.getLast? = some '\n' ∧ ChunksOk ls

/-- Events of the optional publishing-tool availability check. -/
def twineTrace (opts : Options) : List Event :=
  if opts.upload then [.whichTwine false] else []

/-- Events of the optional branch check (`--only-on` with a non-empty
value). -/
def branchTrace (opts : Options) : List Event :=
  match opts.only_on with
  | none => []
  | some w => if w = [] then [] else [.revParse true]

/-- The branch precondition holds: no (non-empty) required branch, or the
branch query succeeds and reports the required branch. -/
def branchPass (opts : Options) (env : Env) : Prop :=
  match opts.only_on with
  | none => True
  | some w => w = [] ∨ (env.revParse.exitCode = 0 ∧ pyStrip env.revParse.stdout = w)

/-- Local tag set visible to `release`. -/
def localSet (env : Env) : Finset (List Char) :=
  (findTags (pyStrip env.showRef.stdout)).toFinset

/-- Remote tag set visible to `release`. -/
def remoteSet (env : Env) : Finset (List Char) :=
  (findTags (pyStrip env.lsRemote.stdout)).toFinset

/-- The declared version reported by the build tool (stripped stdout). -/
def declaredOf (env : Env) : List Char := pyStrip env.setupVersion.stdout

/-- Events of the optional push step. -/
def pushTrace (opts : Options) : List Event :=
  if opts.push then [.gitPush false] else []

/-- Events of the optional upload step. -/
def uploadTrace (opts : Options) : List Event :=
  if opts.upload then [.twineUpload false] else []

/-- Events of the unconditional middle of a successful release, from the
cleanliness check to the annotated tag. -/
def coreTrace (opts : Options) (env : Env) : List Event :=
  [.diffIndex true, .showRef true, .lsRemote true, .setupExists, .setupVersion true,
   .rewriteSetup (update_version_setup_py opts.version env.setupPyContent).1,
   .rmDist false, .buildDist true, .gitAdd false, .gitCommit false, .gitTag false]

/-- An event agrees with the capture discipline of the source: its stdout is
captured exactly when it is one of the five inspection queries or the
distribution build. -/
def capturedOk (ev : Event) : Bool :=
  (capturesOf ev = some true) =
    (kindOf ev ∈ [EKind.revParseK, .showRefK, .lsRemoteK, .diffIndexK, .setupVersionK, .buildK])

/-- A process that exits 0 printing nothing. -/
def okProc : ProcResult := ⟨0, []⟩

/-- A happy-path environment: clean master checkout, no tags anywhere, a
`setup.py` declaring version 0.9, every external tool succeeding. -/
def witnessEnv : Env :=
  ⟨okProc, ⟨0, "master\n".data⟩, okProc, ⟨1, []⟩, okProc,
   ⟨0, "0.9\n".data⟩, true, "import x\nVERSION = \x270.9\x27\nrest\n".data,
   okProc, okProc, okProc, okProc, okProc, okProc, okProc⟩

/-- Like `witnessEnv` but with uncommitted changes in the working tree. -/
def dirtyEnv : Env :=
  ⟨okProc, ⟨0, "master\n".data⟩, ⟨1, []⟩, ⟨1, []⟩, okProc,
   ⟨0, "0.9\n".data⟩, true, "import x\nVERSION = \x270.9\x27\nrest\n".data,
   okProc, okProc, okProc, okProc, okProc, okProc, okProc⟩

/-- Like `witnessEnv` but with an unreachable `origin` remote and an
empty local tag listing. -/
def remoteDownEnv : Env :=
  ⟨okProc, ⟨0, "master\n".data⟩, okProc, ⟨1, []⟩, ⟨128, []⟩,
   ⟨0, "0.9\n".data⟩, true, "import x\nVERSION = \x270.9\x27\nrest\n".data,
   okProc, okProc, okProc, okProc, okProc, okProc, okProc⟩

/-- Plain options: version 1.0, no required branch, no push, no upload. -/
def witnessOpts : Options := ⟨"1.0".data, none, false, false⟩

/-! ## General lemmas about the embedding -/

theorem andThen_ok {α β : Type} (a : α) (t : List Event) (f : α → Run β) :
    andThen (.ok a, t) f = mapTrace t (f a) := rfl

theorem andThen_error {α β : Type} (e : Err) (t : List Event) (f : α → Run β) :
    andThen (.error e, t) f = (.error e, t) := rfl

theorem mapTrace_mk {α : Type} (t : List Event) (r : Except Err α) (tr : List Event) :
    mapTrace t (r, tr) = (r, t ++ tr) := rfl

theorem updateLines_eq (version : List Char) (b : Bool) (ls : List (List Char)) :
    updateLines version b ls =
      ((ls.map (rewriteLine version)).flatten, b || ls.any matchesVersionAssign) := by
  induction ls generalizing b with
  | nil => simp [updateLines]
  | cons l ls ih =>
    cases h : matchesVersionAssign l with
    | true => simp [updateLines, h, rewriteLine, ih]
    | false => simp [updateLines, h, rewriteLine, ih]

theorem splitPy_cons_nl (cs : List Char) : splitPy ('\n' :: cs) = ['\n'] :: splitPy cs := by
  simp [splitPy]

theorem splitPy_cons_ne (c : Char) (cs : List Char) (h : c ≠ '\n') :
    splitPy (c :: cs) =
      match splitPy cs with
      | [] => [[c]]
      | l :: ls => (c :: l) :: ls := by
  rw [splitPy, if_neg h]

theorem splitPy_ne_nil (c : Char) (cs : List Char) : splitPy (c :: cs) ≠ [] := by
  simp only [splitPy]
  split
  · simp
  · split <;> simp

theorem splitPy_eq_nil_iff (s : List Char) : splitPy s = [] ↔ s = [] := by
  cases s with
  | nil => simp [splitPy]
  | cons c cs => simp [splitPy_ne_nil]

theorem flatten_splitPy (s : List Char) : (splitPy s).flatten = s := by
  induction s with
  | nil => rfl
  | cons c cs ih =>
    by_cases h : c = '\n'
    · subst h
      simpa [splitPy] using ih
    · simp only [splitPy, if_neg h]
      cases hs : splitPy cs with
      | nil =>
        have : cs = [] := (splitPy_eq_nil_iff cs).1 hs
        subst this
        simp
      | cons l ls =>
        rw [hs] at ih
        simpa using ih

theorem lineChunk_cons (c : Char) (l : List Char) (hc : c ≠ '\n') (hl : lineChunk l) :
    lineChunk (c :: l) ∧ (c :: l).getLast? = l.getLast? := by
  obtain ⟨hne, hmem⟩ := hl
  cases l with
  | nil => exact absurd rfl hne
  | cons a l' =>
    refine ⟨⟨by simp, ?_⟩, List.getLast?_cons_cons ..⟩
    intro x hx
    rw [List.dropLast_cons₂] at hx
    rcases List.mem_cons.1 hx with rfl | hx
    · exact hc
    · exact hmem x hx

theorem lineChunk_canonical (version : List Char) (h : '\n' ∉ version) :
    lineChunk (canonicalVersionLine version) ∧
      (canonicalVersionLine version).getLast? = some '\n' := by
  have hdec : canonicalVersionLine version =
      ("VERSION = \x27".data ++ version ++ "\x27  # maintained by release tool".data)
        ++ ['\n'] := by
    have h1 : "\x27  # maintained by release tool\n".data =
        "\x27  # maintained by release tool".data ++ ['\n'] := by decide
    rw [canonicalVersionLine, h1]
    simp [List.append_assoc]
  rw [hdec]
  refine ⟨⟨by simp, ?_⟩, List.getLast?_concat _⟩
  intro x hx
  rw [List.dropLast_concat] at hx
  rcases List.mem_append.1 hx with hx | hx
  · rcases List.mem_append.1 hx with hx | hx
    · intro he
      subst he
      revert hx
      decide
    · intro he
      exact h (he ▸ hx)
  · intro he
    subst he
    revert hx
    decide

theorem chunksOk_splitPy (s : List Char) : ChunksOk (splitPy s) := by
  induction s with
  | nil => simp [splitPy, ChunksOk]
  | cons c cs ih =>
    by_cases h : c = '\n'
    · subst h
      simp only [splitPy, if_pos rfl]
      cases hs : splitPy cs with
      | nil => simp [ChunksOk, lineChunk]
      | cons l ls =>
        rw [hs] at ih
        exact ⟨by simp [lineChunk], rfl, ih⟩
    · simp only [splitPy, if_neg h]
      cases hs : splitPy cs with
      | nil => exact ⟨by simp, by simp⟩
      | cons l ls =>
        rw [hs] at ih
        cases ls with
        | nil =>
          have hl : lineChunk l := ih
          exact (lineChunk_cons c l h hl).1
        | cons l₂ ls₂ =>
          obtain ⟨h1, h2, h3⟩ := ih
          obtain ⟨hc1, hc2⟩ := lineChunk_cons c l h h1
          exact ⟨hc1, hc2 ▸ h2, h3⟩

theorem splitPy_append (l r : List Char) (hl : lineChunk l)
    (hlast : l.getLast? = some '\n') : splitPy (l ++ r) = l :: splitPy r := by
  induction l with
  | nil => exact absurd rfl hl.1
  | cons c l' ih =>
    cases l' with
    | nil =>
      have hc : c = '\n' := by simpa using hlast
      subst hc
      simp [splitPy]
    | cons a l'' =>
      have hc : c ≠ '\n' := by
        apply hl.2
        simp [List.dropLast_cons₂]
      have hl' : lineChunk (a :: l'') := by
        refine ⟨by simp, ?_⟩
        intro x hx
        exact hl.2 x (by rw [List.dropLast_cons₂]; exact List.mem_cons_of_mem _ hx)
      have hlast' : (a :: l'').getLast? = some '\n' := by
        rw [List.getLast?_cons_cons] at hlast
        exact hlast
      have hrec := ih hl' hlast'
      rw [List.cons_append, splitPy_cons_ne c _ hc, hrec]

theorem splitPy_no_newline (l : List Char) (hne : l ≠ [])
    (hn : ∀ c ∈ l, c ≠ '\n') : splitPy l = [l] := by
  induction l with
  | nil => exact absurd rfl hne
  | cons c l' ih =>
    have hc : c ≠ '\n' := hn c (by simp)
    cases l' with
    | nil => simp [splitPy, hc]
    | cons a l'' =>
      have hrec : splitPy (a :: l'') = [a :: l''] := by
        apply ih (by simp)
        intro x hx
        exact hn x (List.mem_cons_of_mem _ hx)
      rw [splitPy_cons_ne c _ hc, hrec]

theorem splitPy_single (l : List Char) (hl : lineChunk l) : splitPy l = [l] := by
  by_cases h : l.getLast? = some '\n'
  · have := splitPy_append l [] hl h
    simpa [splitPy] using this
  · apply splitPy_no_newline l hl.1
    intro c hc
    have hdec := List.dropLast_append_getLast hl.1
    by_cases hmem : c ∈ l.dropLast
    · exact hl.2 c hmem
    · have : c = l.getLast hl.1 := by
        rw [← hdec] at hc
        rcases List.mem_append.1 hc with hx | hx
        · exact absurd hx hmem
        · simpa using hx
      subst this
      intro heq
      apply h
      rw [List.getLast?_eq_getLast l hl.1, heq]

theorem splitPy_flatten_of_chunksOk (ls : List (List Char)) (h : ChunksOk ls) :
    splitPy ls.flatten = ls := by
  induction ls with
  | nil => rfl
  | cons l ls ih =>
    cases ls with
    | nil =>
      have hl : lineChunk l := h
      simp [splitPy_single l hl]
    | cons l₂ ls₂ =>
      obtain ⟨h1, h2, h3⟩ := h
      rw [List.flatten_cons, splitPy_append l _ h1 h2, ih h3]

theorem matchesVersionAssign_canonical (version : List Char) :
    matchesVersionAssign (canonicalVersionLine version) = true := by
  have hdec : canonicalVersionLine version =
      'V' :: 'E' :: 'R' :: 'S' :: 'I' :: 'O' :: 'N' :: ' ' :: '=' :: ' ' :: '\x27' ::
        (version ++ "\x27  # maintained by release tool\n".data) := by
    have h1 : "VERSION = \x27".data =
        ['V','E','R','S','I','O','N',' ','=',' ','\x27'] := by decide
    rw [canonicalVersionLine, h1]
    simp
  rw [hdec]
  simp [matchesVersionAssign, isSpace]

theorem rewriteLine_idem (version l : List Char) :
    rewriteLine version (rewriteLine version l) = rewriteLine version l := by
  cases h : matchesVersionAssign l with
  | true => simp [rewriteLine, h, matchesVersionAssign_canonical]
  | false => simp [rewriteLine, h]

theorem map_rewriteLine_idem (version : List Char) (ls : List (List Char)) :
    (ls.map (rewriteLine version)).map (rewriteLine version) =
      ls.map (rewriteLine version) := by
  induction ls with
  | nil => rfl
  | cons l ls ih => simp [rewriteLine_idem, ih]

theorem chunksOk_map_rewrite (version : List Char) (hv : '\n' ∉ version)
    (ls : List (List Char)) (h : ChunksOk ls) :
    ChunksOk (ls.map (rewriteLine version)) := by
  induction ls with
  | nil => exact trivial
  | cons l ls ih =>
    have hline : ∀ m : List Char, lineChunk m → lineChunk (rewriteLine version m) := by
      intro m hm
      cases hmt : matchesVersionAssign m with
      | true => simpa [rewriteLine, hmt] using (lineChunk_canonical version hv).1
      | false => simpa [rewriteLine, hmt] using hm
    have hlast : ∀ m : List Char, m.getLast? = some '\n' →
        (rewriteLine version m).getLast? = some '\n' := by
      intro m hm
      cases hmt : matchesVersionAssign m with
      | true => simpa [rewriteLine, hmt] using (lineChunk_canonical version hv).2
      | false => simpa [rewriteLine, hmt] using hm
    cases ls with
    | nil => exact hline l h
    | cons l₂ ls₂ =>
      obtain ⟨h1, h2, h3⟩ := h
      exact ⟨hline l h1, hlast l h2, ih h3⟩

/-! ## Claims C1, C2, C10: the version rewrite -/

theorem univNewlines_cr_nl (cs : List Char) :
    univNewlines ('\r' :: '\n' :: cs) = '\n' :: univNewlines cs := rfl

theorem univNewlines_cons_ne (c : Char) (cs : List Char) (h : c ≠ '\r') :
    univNewlines (c :: cs) = c :: univNewlines cs := by
  rcases cs with _ | ⟨c2, cs⟩ <;> simp [univNewlines, h]

theorem univNewlines_cr_ne (c2 : Char) (cs2 : List Char) (h : c2 ≠ '\n') :
    univNewlines ('\r' :: c2 :: cs2) = '\n' :: univNewlines (c2 :: cs2) := by
  simp [univNewlines, h]

theorem univNewlines_no_cr (s : List Char) : '\r' ∉ univNewlines s := by
  induction s with
  | nil => simp [univNewlines]
  | cons c cs ih =>
    by_cases hc : c = '\r'
    · subst hc
      rcases cs with _ | ⟨c2, cs2⟩
      · decide
      · by_cases h2 : c2 = '\n'
        · subst h2
          rw [univNewlines_cr_nl]
          intro hmem
          rcases List.mem_cons.1 hmem with h | h
          · exact absurd h (by decide)
          · apply ih
            rw [univNewlines_cons_ne '\n' cs2 (by decide)]
            exact List.mem_cons_of_mem _ h
        · rw [univNewlines_cr_ne c2 cs2 h2]
          intro hmem
          rcases List.mem_cons.1 hmem with h | h
          · exact absurd h (by decide)
          · exact ih h
    · rw [univNewlines_cons_ne c cs hc]
      intro hmem
      rcases List.mem_cons.1 hmem with h | h
      · exact hc h.symm
      · exact ih h

theorem univNewlines_eq_self (s : List Char) (h : '\r' ∉ s) : univNewlines s = s := by
  induction s with
  | nil => rfl
  | cons c cs ih =>
    have hc : c ≠ '\r' := by
      intro he
      exact h (he ▸ List.mem_cons_self c cs)
    rw [univNewlines_cons_ne c cs hc, ih (fun hm => h (List.mem_cons_of_mem c hm))]

theorem mem_of_mem_splitPy {c : Char} {l s : List Char}
    (hl : l ∈ splitPy s) (hc : c ∈ l) : c ∈ s := by
  have h := List.mem_flatten.2 ⟨l, hl, hc⟩
  rwa [flatten_splitPy] at h

theorem canonical_no_cr (version : List Char) (hv : '\r' ∉ version) :
    '\r' ∉ canonicalVersionLine version := by
  intro h
  rcases List.mem_append.1 h with h | h
  · rcases List.mem_append.1 h with h | h
    · exact absurd h (by decide)
    · exact hv h
  · exact absurd h (by decide)

theorem rewriteLine_no_cr (version l : List Char) (hv : '\r' ∉ version)
    (hl : '\r' ∉ l) : '\r' ∉ rewriteLine version l := by
  cases h : matchesVersionAssign l with
  | true => simpa [rewriteLine, h] using canonical_no_cr version hv
  | false => simpa [rewriteLine, h] using hl

theorem update_version_eq (version content : List Char) :
    update_version_setup_py version content =
      (((splitPy (univNewlines content)).map (rewriteLine version)).flatten,
       (splitPy (univNewlines content)).any matchesVersionAssign) := by
  simp [update_version_setup_py, updateLines_eq]

theorem update_no_cr (version content : List Char) (hv : '\r' ∉ version) :
    '\r' ∉ (update_version_setup_py version content).1 := by
  rw [update_version_eq]
  intro h
  rcases List.mem_flatten.1 h with ⟨l, hl, hcl⟩
  rcases List.mem_map.1 hl with ⟨l0, hl0, rfl⟩
  have h0 : '\r' ∉ l0 := fun hc => univNewlines_no_cr content (mem_of_mem_splitPy hl0 hc)
  exact rewriteLine_no_cr version l0 hv h0 hcl

/-- C1 counterexample: with two matching lines, `update_version_setup_py`
rewrites BOTH, while the claim demands that only the first be rewritten
and the duplicate left untouched. -/
theorem c1_counterexample :
    (update_version_setup_py "9".data "VERSION=1\nVERSION=2\n".data).1 ≠
      (rewriteFirstOnly "9".data
        (splitPy (univNewlines "VERSION=1\nVERSION=2\n".data))).flatten := by
  decide

/-- C1 (amended): `update_version_setup_py` operates on the universal-newline
translation of the file (text-mode reading turns CR and CRLF into LF); it
replaces EVERY translated line matching the version-assignment pattern with
the canonical line, reproduces all non-matching translated lines unchanged
and in original order, and reports whether any line matched. -/
theorem c1_rewrite_every_matching_line (version content : List Char) :
    (update_version_setup_py version content).1 =
      ((splitPy (univNewlines content)).map (rewriteLine version)).flatten ∧
    (update_version_setup_py version content).2 =
      (splitPy (univNewlines content)).any matchesVersionAssign := by
  rw [update_version_eq]
  exact ⟨rfl, rfl⟩

/-- C2 counterexample: for a version string that itself contains a newline,
the rewrite is NOT idempotent — the canonical line written by the first pass
splits into two lines that both match on the second pass. -/
theorem c2_counterexample :
    (update_version_setup_py "1\nVERSION=".data
        ((update_version_setup_py "1\nVERSION=".data "VERSION=0\n".data).1)).1 ≠
      (update_version_setup_py "1\nVERSION=".data "VERSION=0\n".data).1 := by
  decide

/-- C2 (amended): for every file content and every version containing neither
a newline nor a carriage return (both of which the text-mode re-read would
treat as line breaks inside the canonical line), rewriting once and then
rewriting again with the same version yields identical file content after
the first and after the second application. -/
theorem c2_rewrite_idempotent (version content : List Char)
    (hn : '\n' ∉ version) (hr : '\r' ∉ version) :
    (update_version_setup_py version
        ((update_version_setup_py version content).1)).1 =
      (update_version_setup_py version content).1 := by
  have hout : '\r' ∉ (update_version_setup_py version content).1 :=
    update_no_cr version content hr
  have h1 : (update_version_setup_py version content).1 =
      ((splitPy (univNewlines content)).map (rewriteLine version)).flatten :=
    congrArg Prod.fst (update_version_eq version content)
  have hck : ChunksOk ((splitPy (univNewlines content)).map (rewriteLine version)) :=
    chunksOk_map_rewrite version hn _ (chunksOk_splitPy _)
  have e1 : (update_version_setup_py version
      ((update_version_setup_py version content).1)).1 =
      ((splitPy ((update_version_setup_py version content).1)).map
        (rewriteLine version)).flatten := by
    rw [update_version_eq, univNewlines_eq_self _ hout]
  rw [e1, h1, splitPy_flatten_of_chunksOk _ hck, map_rewriteLine_idem]

/-- C2 witness: a concrete idempotent run with version 1.0. -/
theorem c2_rewrite_idempotent_witness :
    '\n' ∉ "1.0".data ∧ '\r' ∉ "1.0".data ∧
    (update_version_setup_py "1.0".data
        ((update_version_setup_py "1.0".data "VERSION = \x270.9\x27\nrest\n".data).1)).1 =
      (update_version_setup_py "1.0".data "VERSION = \x270.9\x27\nrest\n".data).1 :=
  ⟨by decide, by decide,
   c2_rewrite_idempotent "1.0".data "VERSION = \x270.9\x27\nrest\n".data
     (by decide) (by decide)⟩

/-- C10: the version-assignment pattern is anchored at the first column —
every line of the (universal-newline translated) file that does not begin
with the identifier `VERSION` never matches, is mapped to itself by the
per-line rewrite (and the whole output is exactly the per-line map in
original order, so the line is reproduced unchanged in place), and
contributes `false` to the changed flag, which is the disjunction of the
per-line matches. -/
theorem c10_match_anchored (version content l : List Char)
    (hl : l ∈ splitPy (univNewlines content))
    (h : l.take 7 ≠ "VERSION".data) :
    matchesVersionAssign l = false ∧
    rewriteLine version l = l ∧
    (update_version_setup_py version content).1 =
      ((splitPy (univNewlines content)).map (rewriteLine version)).flatten ∧
    (update_version_setup_py version content).2 =
      (splitPy (univNewlines content)).any matchesVersionAssign := by
  have hm : matchesVersionAssign l = false := by
    simp [matchesVersionAssign, h]
  have he := update_version_eq version content
  exact ⟨hm, by simp [rewriteLine, hm], congrArg Prod.fst he, congrArg Prod.snd he⟩

/-- C10 witness: in a file mixing an indented assignment with an anchored
one, the indented line does not match and is reproduced unchanged while the
anchored line is rewritten. -/
theorem c10_match_anchored_witness :
    "  VERSION = 1\n".data ∈
      splitPy (univNewlines "  VERSION = 1\nVERSION = 2\n".data) ∧
    matchesVersionAssign "  VERSION = 1\n".data = false ∧
    rewriteLine "9".data "  VERSION = 1\n".data = "  VERSION = 1\n".data ∧
    (update_version_setup_py "9".data "  VERSION = 1\nVERSION = 2\n".data).1 =
      ((splitPy (univNewlines "  VERSION = 1\nVERSION = 2\n".data)).map
        (rewriteLine "9".data)).flatten ∧
    (update_version_setup_py "9".data "  VERSION = 1\nVERSION = 2\n".data).2 =
      (splitPy (univNewlines "  VERSION = 1\nVERSION = 2\n".data)).any
        matchesVersionAssign :=
  ⟨by decide,
   c10_match_anchored "9".data "  VERSION = 1\nVERSION = 2\n".data
     "  VERSION = 1\n".data (by decide) (by decide)⟩

/-! ## Claim C7: tag-name extraction -/

theorem specTagList_subset_cons (c : Char) (cs : List Char) :
    ∀ t ∈ specTagList cs, t ∈ specTagList (c :: cs) := by
  intro t ht
  simp only [specTagList, List.mem_append]
  exact Or.inr ht

theorem specTagList_drop_subset (s : List Char) (n : Nat) :
    ∀ t ∈ specTagList (s.drop n), t ∈ specTagList s := by
  induction s generalizing n with
  | nil => simp
  | cons c cs ih =>
    cases n with
    | zero => simp
    | succ m =>
      intro t ht
      rw [List.drop_succ_cons] at ht
      exact specTagList_subset_cons c cs t (ih m t ht)

theorem findTagsAux_sound (fuel : Nat) :
    ∀ (s : List Char), ∀ t ∈ findTagsAux fuel s, t ∈ specTagList s := by
  induction fuel with
  | zero =>
    intro s t ht
    cases s <;> simp [findTagsAux] at ht
  | succ f ih =>
    intro s t ht
    cases s with
    | nil => simp [findTagsAux] at ht
    | cons c cs =>
      by_cases hpre : (c :: cs).take refsTagsMarker.length = refsTagsMarker
      · by_cases hname : takeTagName ((c :: cs).drop refsTagsMarker.length) = []
        · simp only [findTagsAux, if_pos hpre, hname, if_pos rfl] at ht
          exact specTagList_subset_cons c cs t (ih cs t ht)
        · simp only [findTagsAux, if_pos hpre, if_neg hname, List.mem_cons] at ht
          rcases ht with rfl | ht
          · simp only [specTagList, List.mem_append]
            exact Or.inl (by rw [if_pos hpre, if_neg hname]; simp)
          · have := ih _ t ht
            rw [List.drop_drop] at this
            exact specTagList_drop_subset (c :: cs) _ t this
      · simp only [findTagsAux, if_neg hpre] at ht
        exact specTagList_subset_cons c cs t (ih cs t ht)

theorem findTags_sound (s : List Char) :
    ∀ t ∈ findTags s, t ∈ specTagList s :=
  findTagsAux_sound s.length s

theorem findTagsAux_wf (fuel : Nat) :
    ∀ (s : List Char), ∀ t ∈ findTagsAux fuel s,
      t ≠ [] ∧ ∀ ch ∈ t, ch ≠ '^' ∧ ch ≠ '\n' := by
  induction fuel with
  | zero =>
    intro s t ht
    cases s <;> simp [findTagsAux] at ht
  | succ f ih =>
    intro s t ht
    cases s with
    | nil => simp [findTagsAux] at ht
    | cons c cs =>
      by_cases hpre : (c :: cs).take refsTagsMarker.length = refsTagsMarker
      · by_cases hname : takeTagName ((c :: cs).drop refsTagsMarker.length) = []
        · simp only [findTagsAux, if_pos hpre, hname, if_pos rfl] at ht
          exact ih cs t ht
        · simp only [findTagsAux, if_pos hpre, if_neg hname, List.mem_cons] at ht
          rcases ht with rfl | ht
          · refine ⟨hname, ?_⟩
            intro ch hch
            have := List.mem_takeWhile_imp hch
            simpa using this
          · exact ih _ t ht
      · simp only [findTagsAux, if_neg hpre] at ht
        exact ih cs t ht

theorem findTags_wf (s : List Char) :
    ∀ t ∈ findTags s, t ≠ [] ∧ ∀ ch ∈ t, ch ≠ '^' ∧ ch ≠ '\n' :=
  findTagsAux_wf s.length s

/-- C7 counterexample: the claim demands the substring after EVERY
occurrence of the `refs/tags/` marker; the source scan is non-overlapping,
so a marker occurring inside an already-extracted tag name contributes
nothing. -/
theorem c7_counterexample :
    (findTags "refs/tags/refs/tags/a".data).toFinset ≠
      (specTagList "refs/tags/refs/tags/a".data).toFinset := by
  decide

/-- C7 (amended): tag-name extraction returns a deduplicated SUBSET of the
per-occurrence substrings — every extracted name is nonempty, free of `^`
and newline, and follows some occurrence of `refs/tags/`, extending up to
but not including the next newline or `^`; names whose marker occurrence
begins inside an already-matched name are omitted by the non-overlapping
scan. -/
theorem c7_tag_extraction_subset (s : List Char) :
    (findTags s).toFinset ⊆ (specTagList s).toFinset ∧
    ∀ t ∈ (findTags s).toFinset, t ≠ [] ∧ ∀ ch ∈ t, ch ≠ '^' ∧ ch ≠ '\n' := by
  constructor
  · intro t ht
    rw [List.mem_toFinset] at *
    exact findTags_sound s t ht
  · intro t ht
    rw [List.mem_toFinset] at ht
    exact findTags_wf s t ht

/-! ## Step characterizations for release -/

theorem is_twine_installed_eq (env : Env) :
    is_twine_installed env = (.ok (env.whichTwine.exitCode == 0), [.whichTwine false]) := rfl

theorem is_git_clean_eq (env : Env) :
    is_git_clean env = (.ok (env.diffIndex.exitCode == 0), [.diffIndex true]) := rfl

theorem get_git_tags_local_eq (env : Env) :
    get_git_tags env false =
      (.ok (findTags (pyStrip env.showRef.stdout)).toFinset, [.showRef true]) := rfl

theorem setupExistsCheck_eq (env : Env) :
    setupExistsCheck env = (.ok env.setupPyExists, [.setupExists]) := rfl

theorem rewriteStep_eq (version_string : List Char) (env : Env) :
    rewriteStep version_string env =
      (.ok (update_version_setup_py version_string env.setupPyContent).2,
       [.rewriteSetup (update_version_setup_py version_string env.setupPyContent).1]) := rfl

theorem get_git_branch_ok (env : Env) (h : env.revParse.exitCode = 0) :
    get_git_branch env = (.ok (pyStrip env.revParse.stdout), [.revParse true]) := by
  simp [get_git_branch, capture, runProc, andThen, h]

theorem get_git_branch_err (env : Env) (h : env.revParse.exitCode ≠ 0) :
    get_git_branch env =
      (.error (.processFailure revParseArgv env.revParse.exitCode), [.revParse true]) := by
  simp [get_git_branch, capture, runProc, andThen, h]

theorem get_git_tags_remote_ok (env : Env) (h : env.lsRemote.exitCode = 0) :
    get_git_tags env true =
      (.ok (findTags (pyStrip env.lsRemote.stdout)).toFinset, [.lsRemote true]) := by
  simp [get_git_tags, capture, runProc, andThen, h]

theorem get_git_tags_remote_err (env : Env) (h : env.lsRemote.exitCode ≠ 0) :
    get_git_tags env true =
      (.error (.processFailure lsRemoteArgv env.lsRemote.exitCode), [.lsRemote true]) := by
  simp [get_git_tags, capture, runProc, andThen, h]

theorem read_version_ok (env : Env) (h : env.setupVersion.exitCode = 0) :
    read_version_setup_py env =
      (.ok (pyStrip env.setupVersion.stdout), [.setupVersion true]) := by
  simp [read_version_setup_py, capture, runProc, andThen, h]

theorem read_version_err (env : Env) (h : env.setupVersion.exitCode ≠ 0) :
    read_version_setup_py env =
      (.error (.processFailure setupVersionArgv env.setupVersion.exitCode),
       [.setupVersion true]) := by
  simp [read_version_setup_py, capture, runProc, andThen, h]

theorem runProc_nocheck (ev : Bool → Event) (argv : List (List Char)) (r : ProcResult)
    (cap : Bool) : runProc ev argv r false cap = (.ok r, [ev cap]) := by
  simp [runProc]

theorem runProc_check_ok (ev : Bool → Event) (argv : List (List Char)) (r : ProcResult)
    (cap : Bool) (h : r.exitCode = 0) : runProc ev argv r true cap = (.ok r, [ev cap]) := by
  simp [runProc, h]

theorem runProc_check_err (ev : Bool → Event) (argv : List (List Char)) (r : ProcResult)
    (cap : Bool) (h : r.exitCode ≠ 0) :
    runProc ev argv r true cap = (.error (.processFailure argv r.exitCode), [ev cap]) := by
  simp [runProc, h]

/-! ## Claim C6: lenient local tag listing, strict remote tag listing -/

/-- C6: the local tag listing tolerates a non-zero exit of `git show-ref`
and still returns the parsed set (an empty set for empty output), while the
remote listing propagates a process failure when `git ls-remote` exits
non-zero. -/
theorem c6_local_lenient_remote_strict (env : Env)
    (hr : env.lsRemote.exitCode ≠ 0) :
    (get_git_tags env false).1 =
      .ok (findTags (pyStrip env.showRef.stdout)).toFinset ∧
    (env.showRef.stdout = [] → (get_git_tags env false).1 = .ok ∅) ∧
    (get_git_tags env true).1 =
      .error (.processFailure lsRemoteArgv env.lsRemote.exitCode) := by
  refine ⟨by rw [get_git_tags_local_eq], ?_, by rw [get_git_tags_remote_err env hr]⟩
  intro h
  rw [get_git_tags_local_eq]
  simp [h, pyStrip, findTags, findTagsAux]

/-- C6 witness: an environment with an empty tagless repository and an
unreachable remote. -/
theorem c6_local_lenient_remote_strict_witness :
    (get_git_tags remoteDownEnv false).1 =
      .ok (findTags (pyStrip remoteDownEnv.showRef.stdout)).toFinset ∧
    (remoteDownEnv.showRef.stdout = [] →
      (get_git_tags remoteDownEnv false).1 = .ok ∅) ∧
    (get_git_tags remoteDownEnv true).1 =
      .error (.processFailure lsRemoteArgv remoteDownEnv.lsRemote.exitCode) :=
  c6_local_lenient_remote_strict remoteDownEnv (by decide)

/-! ## Case analysis of the release pipeline -/

theorem mapTrace_mapTrace {α : Type} (t t' : List Event) (p : Run α) :
    mapTrace t (mapTrace t' p) = mapTrace (t ++ t') p := by
  simp [mapTrace, List.append_assoc]

theorem twineStage_pass (opts : Options) (env : Env)
    (h : opts.upload = true → env.whichTwine.exitCode = 0) :
    twineStage opts env = (.ok (), twineTrace opts) := by
  cases hup : opts.upload with
  | true =>
    simp [twineStage, is_twine_installed_eq, andThen_ok, mapTrace_mk, twineTrace,
      hup, h hup]
  | false => simp [twineStage, twineTrace, hup]

theorem twineStage_err (opts : Options) (env : Env) (h1 : opts.upload = true)
    (h2 : env.whichTwine.exitCode ≠ 0) :
    twineStage opts env = (.error (.domain twineMsg), [.whichTwine false]) := by
  simp [twineStage, is_twine_installed_eq, andThen_ok, mapTrace_mk, h1,
    beq_iff_eq, h2]

theorem branchStage_pass (opts : Options) (env : Env) (h : branchPass opts env) :
    branchStage opts env = (.ok (), branchTrace opts) := by
  cases ho : opts.only_on with
  | none => simp [branchStage, branchTrace, ho]
  | some w =>
    simp only [branchPass, ho] at h
    by_cases hw : w = []
    · simp [branchStage, branchTrace, ho, hw]
    · rcases h with h | ⟨h1, h2⟩
      · exact absurd h hw
      · simp [branchStage, branchTrace, ho, hw, get_git_branch_ok env h1,
          andThen_ok, mapTrace_mk, h2]

theorem branchStage_proc_err (opts : Options) (env : Env) (w : List Char)
    (ho : opts.only_on = some w) (hw : w ≠ []) (hrp : env.revParse.exitCode ≠ 0) :
    branchStage opts env =
      (.error (.processFailure revParseArgv env.revParse.exitCode),
       [.revParse true]) := by
  simp [branchStage, ho, hw, get_git_branch_err env hrp, andThen_error]

theorem branchStage_mismatch (opts : Options) (env : Env) (w : List Char)
    (ho : opts.only_on = some w) (hw : w ≠ []) (hrp : env.revParse.exitCode = 0)
    (hbm : pyStrip env.revParse.stdout ≠ w) :
    branchStage opts env =
      (.error (.domain (branchMsg w (pyStrip env.revParse.stdout))),
       [.revParse true]) := by
  simp [branchStage, ho, hw, get_git_branch_ok env hrp, andThen_ok, mapTrace_mk, hbm]

theorem release_run (opts : Options) (env : Env)
    (hv : ¬ opts.version.take 1 = ['v'])
    (htw : opts.upload = true → env.whichTwine.exitCode = 0)
    (hbp : branchPass opts env) :
    release opts env =
      mapTrace (twineTrace opts ++ branchTrace opts) (releaseMain opts env) := by
  rw [release, if_neg hv, twineStage_pass opts env htw, andThen_ok,
    branchStage_pass opts env hbp, andThen_ok, mapTrace_mapTrace]

theorem releaseMain_cases (opts : Options) (env : Env) :
    (env.diffIndex.exitCode ≠ 0 ∧
      releaseMain opts env = (.error (.domain uncommitedMsg), [.diffIndex true])) ∨
    (env.diffIndex.exitCode = 0 ∧ ('v' :: opts.version) ∈ localSet env ∧
      releaseMain opts env = (.error (.domain (localTagMsg ('v' :: opts.version))),
        [.diffIndex true, .showRef true])) ∨
    (env.diffIndex.exitCode = 0 ∧ ('v' :: opts.version) ∉ localSet env ∧
      env.lsRemote.exitCode ≠ 0 ∧
      releaseMain opts env = (.error (.processFailure lsRemoteArgv env.lsRemote.exitCode),
        [.diffIndex true, .showRef true, .lsRemote true])) ∨
    (env.diffIndex.exitCode = 0 ∧ ('v' :: opts.version) ∉ localSet env ∧
      env.lsRemote.exitCode = 0 ∧ ('v' :: opts.version) ∈ remoteSet env ∧
      releaseMain opts env = (.error (.domain (remoteTagMsg ('v' :: opts.version))),
        [.diffIndex true, .showRef true, .lsRemote true])) ∨
    (env.diffIndex.exitCode = 0 ∧ ('v' :: opts.version) ∉ localSet env ∧
      env.lsRemote.exitCode = 0 ∧ ('v' :: opts.version) ∉ remoteSet env ∧
      env.setupPyExists = false ∧
      releaseMain opts env = (.error (.domain missingSetupMsg),
        [.diffIndex true, .showRef true, .lsRemote true, .setupExists])) ∨
    (env.diffIndex.exitCode = 0 ∧ env.setupVersion.exitCode ≠ 0 ∧
      releaseMain opts env =
        (.error (.processFailure setupVersionArgv env.setupVersion.exitCode),
         [.diffIndex true, .showRef true, .lsRemote true, .setupExists,
          .setupVersion true])) ∨
    (env.diffIndex.exitCode = 0 ∧ opts.version = declaredOf env ∧
      releaseMain opts env = (.error (.domain alreadyCurrentMsg),
        [.diffIndex true, .showRef true, .lsRemote true, .setupExists,
         .setupVersion true])) ∨
    (env.diffIndex.exitCode = 0 ∧
      (update_version_setup_py opts.version env.setupPyContent).2 = false ∧
      releaseMain opts env = (.error (.domain failedUpdateMsg),
        [.diffIndex true, .showRef true, .lsRemote true, .setupExists,
         .setupVersion true,
         .rewriteSetup (update_version_setup_py opts.version env.setupPyContent).1])) ∨
    (env.diffIndex.exitCode = 0 ∧ env.rmDist.exitCode ≠ 0 ∧
      releaseMain opts env =
        (.error (.processFailure rmDistArgv env.rmDist.exitCode),
         [.diffIndex true, .showRef true, .lsRemote true, .setupExists,
          .setupVersion true,
          .rewriteSetup (update_version_setup_py opts.version env.setupPyContent).1,
          .rmDist false])) ∨
    (env.diffIndex.exitCode = 0 ∧ env.buildDist.exitCode ≠ 0 ∧
      releaseMain opts env = (.error (.domain failedBuildMsg),
        [.diffIndex true, .showRef true, .lsRemote true, .setupExists,
         .setupVersion true,
         .rewriteSetup (update_version_setup_py opts.version env.setupPyContent).1,
         .rmDist false, .buildDist true])) ∨
    (env.diffIndex.exitCode = 0 ∧ env.gitAdd.exitCode ≠ 0 ∧
      releaseMain opts env =
        (.error (.processFailure gitAddArgv env.gitAdd.exitCode),
         [.diffIndex true, .showRef true, .lsRemote true, .setupExists,
          .setupVersion true,
          .rewriteSetup (update_version_setup_py opts.version env.setupPyContent).1,
          .rmDist false, .buildDist true, .gitAdd false])) ∨
    (env.diffIndex.exitCode = 0 ∧ env.gitCommit.exitCode ≠ 0 ∧
      releaseMain opts env =
        (.error (.processFailure (gitCommitArgv ('v' :: opts.version))
            env.gitCommit.exitCode),
         [.diffIndex true, .showRef true, .lsRemote true, .setupExists,
          .setupVersion true,
          .rewriteSetup (update_version_setup_py opts.version env.setupPyContent).1,
          .rmDist false, .buildDist true, .gitAdd false, .gitCommit false])) ∨
    (env.diffIndex.exitCode = 0 ∧ env.gitTag.exitCode ≠ 0 ∧
      releaseMain opts env =
        (.error (.processFailure (gitTagArgv ('v' :: opts.version))
            env.gitTag.exitCode),
         coreTrace opts env)) ∨
    (env.diffIndex.exitCode = 0 ∧ opts.push = true ∧ env.gitPush.exitCode ≠ 0 ∧
      releaseMain opts env =
        (.error (.processFailure gitPushArgv env.gitPush.exitCode),
         coreTrace opts env ++ [.gitPush false])) ∨
    (env.diffIndex.exitCode = 0 ∧ opts.upload = true ∧
      env.twineUpload.exitCode ≠ 0 ∧
      releaseMain opts env =
        (.error (.processFailure twineUploadArgv env.twineUpload.exitCode),
         coreTrace opts env ++ pushTrace opts ++ [.twineUpload false])) ∨
    (env.diffIndex.exitCode = 0 ∧
      releaseMain opts env =
        (.ok (), coreTrace opts env ++ pushTrace opts ++ uploadTrace opts)) := by
  by_cases hcl : env.diffIndex.exitCode = 0
  case neg =>
    refine Or.inl ⟨hcl, ?_⟩
    simp [releaseMain, is_git_clean_eq, andThen_ok, andThen_error, mapTrace_mk,
      beq_iff_eq, hcl]
  right
  by_cases hl : ('v' :: opts.version) ∈ (findTags (pyStrip env.showRef.stdout)).toFinset
  · refine Or.inl ⟨hcl, hl, ?_⟩
    simp [releaseMain, is_git_clean_eq, get_git_tags_local_eq, andThen_ok,
      andThen_error, mapTrace_mk, hcl, hl]
  right
  by_cases hlr : env.lsRemote.exitCode = 0
  case neg =>
    refine Or.inl ⟨hcl, hl, hlr, ?_⟩
    simp [releaseMain, is_git_clean_eq, get_git_tags_local_eq,
      get_git_tags_remote_err env hlr, andThen_ok, andThen_error, mapTrace_mk,
      hcl, hl]
  right
  by_cases hr : ('v' :: opts.version) ∈ (findTags (pyStrip env.lsRemote.stdout)).toFinset
  · refine Or.inl ⟨hcl, hl, hlr, hr, ?_⟩
    simp [releaseMain, is_git_clean_eq, get_git_tags_local_eq,
      get_git_tags_remote_ok env hlr, andThen_ok, andThen_error, mapTrace_mk,
      hcl, hl, hr]
  right
  cases hse : env.setupPyExists with
  | false =>
    refine Or.inl ⟨hcl, hl, hlr, hr, rfl, ?_⟩
    simp [releaseMain, is_git_clean_eq, get_git_tags_local_eq,
      get_git_tags_remote_ok env hlr, setupExistsCheck_eq, andThen_ok,
      andThen_error, mapTrace_mk, hcl, hl, hr, hse]
  | true =>
  right
  by_cases hsv : env.setupVersion.exitCode = 0
  case neg =>
    refine Or.inl ⟨hcl, hsv, ?_⟩
    simp [releaseMain, is_git_clean_eq, get_git_tags_local_eq,
      get_git_tags_remote_ok env hlr, setupExistsCheck_eq,
      read_version_err env hsv, andThen_ok, andThen_error, mapTrace_mk,
      hcl, hl, hr, hse]
  right
  by_cases hd : opts.version = pyStrip env.setupVersion.stdout
  · refine Or.inl ⟨hcl, hd, ?_⟩
    simp [releaseMain, is_git_clean_eq, get_git_tags_local_eq,
      get_git_tags_remote_ok env hlr, setupExistsCheck_eq,
      read_version_ok env hsv, andThen_ok, andThen_error, mapTrace_mk,
      hcl, hl, hr, hse, eq_true hd]
  right
  cases hch : (update_version_setup_py opts.version env.setupPyContent).2 with
  | false =>
    refine Or.inl ⟨hcl, rfl, ?_⟩
    simp [releaseMain, is_git_clean_eq, get_git_tags_local_eq,
      get_git_tags_remote_ok env hlr, setupExistsCheck_eq,
      read_version_ok env hsv, rewriteStep_eq, andThen_ok, andThen_error,
      mapTrace_mk, hcl, hl, hr, hse, hd, hch]
  | true =>
  right
  by_cases hrm : env.rmDist.exitCode = 0
  case neg =>
    refine Or.inl ⟨hcl, hrm, ?_⟩
    simp [releaseMain, is_git_clean_eq, get_git_tags_local_eq,
      get_git_tags_remote_ok env hlr, setupExistsCheck_eq,
      read_version_ok env hsv, rewriteStep_eq, runProc_check_err _ _ _ _ hrm,
      andThen_ok, andThen_error, mapTrace_mk, hcl, hl, hr, hse, hd, hch]
  right
  by_cases hb : env.buildDist.exitCode = 0
  case neg =>
    refine Or.inl ⟨hcl, hb, ?_⟩
    simp [releaseMain, is_git_clean_eq, get_git_tags_local_eq,
      get_git_tags_remote_ok env hlr, setupExistsCheck_eq,
      read_version_ok env hsv, rewriteStep_eq, runProc_check_ok _ _ _ _ hrm,
      runProc_nocheck, andThen_ok, andThen_error, mapTrace_mk,
      hcl, hl, hr, hse, hd, hch, hb]
  right
  by_cases ha : env.gitAdd.exitCode = 0
  case neg =>
    refine Or.inl ⟨hcl, ha, ?_⟩
    simp [releaseMain, is_git_clean_eq, get_git_tags_local_eq,
      get_git_tags_remote_ok env hlr, setupExistsCheck_eq,
      read_version_ok env hsv, rewriteStep_eq, runProc_check_ok _ _ _ _ hrm,
      runProc_nocheck, runProc_check_err _ _ _ _ ha, andThen_ok, andThen_error,
      mapTrace_mk, hcl, hl, hr, hse, hd, hch, hb]
  right
  by_cases hcm : env.gitCommit.exitCode = 0
  case neg =>
    refine Or.inl ⟨hcl, hcm, ?_⟩
    simp [releaseMain, is_git_clean_eq, get_git_tags_local_eq,
      get_git_tags_remote_ok env hlr, setupExistsCheck_eq,
      read_version_ok env hsv, rewriteStep_eq, runProc_check_ok _ _ _ _ hrm,
      runProc_nocheck, runProc_check_ok _ _ _ _ ha,
      runProc_check_err _ _ _ _ hcm, andThen_ok, andThen_error,
      mapTrace_mk, hcl, hl, hr, hse, hd, hch, hb]
  right
  by_cases htg : env.gitTag.exitCode = 0
  case neg =>
    refine Or.inl ⟨hcl, htg, ?_⟩
    simp [releaseMain, is_git_clean_eq, get_git_tags_local_eq,
      get_git_tags_remote_ok env hlr, setupExistsCheck_eq,
      read_version_ok env hsv, rewriteStep_eq, runProc_check_ok _ _ _ _ hrm,
      runProc_nocheck, runProc_check_ok _ _ _ _ ha,
      runProc_check_ok _ _ _ _ hcm, runProc_check_err _ _ _ _ htg,
      andThen_ok, andThen_error, mapTrace_mk, coreTrace,
      hcl, hl, hr, hse, hd, hch, hb]
  right
  cases hpu : opts.push with
  | true =>
    by_cases hp : env.gitPush.exitCode = 0
    case neg =>
      refine Or.inl ⟨hcl, rfl, hp, ?_⟩
      simp [releaseMain, is_git_clean_eq, get_git_tags_local_eq,
        get_git_tags_remote_ok env hlr, setupExistsCheck_eq,
        read_version_ok env hsv, rewriteStep_eq, runProc_check_ok _ _ _ _ hrm,
        runProc_nocheck, runProc_check_ok _ _ _ _ ha,
        runProc_check_ok _ _ _ _ hcm, runProc_check_ok _ _ _ _ htg,
        runProc_check_err _ _ _ _ hp, andThen_ok, andThen_error, mapTrace_mk,
        coreTrace, hcl, hl, hr, hse, hd, hch, hb, hpu]
    case pos =>
      right
      cases hup : opts.upload with
      | true =>
        by_cases hut : env.twineUpload.exitCode = 0
        case neg =>
          refine Or.inl ⟨hcl, rfl, hut, ?_⟩
          simp [releaseMain, is_git_clean_eq, get_git_tags_local_eq,
            get_git_tags_remote_ok env hlr, setupExistsCheck_eq,
            read_version_ok env hsv, rewriteStep_eq,
            runProc_check_ok _ _ _ _ hrm, runProc_nocheck,
            runProc_check_ok _ _ _ _ ha, runProc_check_ok _ _ _ _ hcm,
            runProc_check_ok _ _ _ _ htg, runProc_check_ok _ _ _ _ hp,
            runProc_check_err _ _ _ _ hut, andThen_ok, andThen_error,
            mapTrace_mk, coreTrace, pushTrace, hcl, hl, hr, hse, hd, hch, hb,
            hpu, hup]
        case pos =>
          refine Or.inr ⟨hcl, ?_⟩
          simp [releaseMain, is_git_clean_eq, get_git_tags_local_eq,
            get_git_tags_remote_ok env hlr, setupExistsCheck_eq,
            read_version_ok env hsv, rewriteStep_eq,
            runProc_check_ok _ _ _ _ hrm, runProc_nocheck,
            runProc_check_ok _ _ _ _ ha, runProc_check_ok _ _ _ _ hcm,
            runProc_check_ok _ _ _ _ htg, runProc_check_ok _ _ _ _ hp,
            runProc_check_ok _ _ _ _ hut, andThen_ok, andThen_error,
            mapTrace_mk, coreTrace, pushTrace, uploadTrace,
            hcl, hl, hr, hse, hd, hch, hb, hpu, hup]
      | false =>
        refine Or.inr ⟨hcl, ?_⟩
        simp [releaseMain, is_git_clean_eq, get_git_tags_local_eq,
          get_git_tags_remote_ok env hlr, setupExistsCheck_eq,
          read_version_ok env hsv, rewriteStep_eq,
          runProc_check_ok _ _ _ _ hrm, runProc_nocheck,
          runProc_check_ok _ _ _ _ ha, runProc_check_ok _ _ _ _ hcm,
          runProc_check_ok _ _ _ _ htg, runProc_check_ok _ _ _ _ hp,
          andThen_ok, andThen_error, mapTrace_mk, coreTrace, pushTrace,
          uploadTrace, hcl, hl, hr, hse, hd, hch, hb, hpu, hup]
  | false =>
    right
    cases hup : opts.upload with
    | true =>
      by_cases hut : env.twineUpload.exitCode = 0
      case neg =>
        refine Or.inl ⟨hcl, rfl, hut, ?_⟩
        simp [releaseMain, is_git_clean_eq, get_git_tags_local_eq,
          get_git_tags_remote_ok env hlr, setupExistsCheck_eq,
          read_version_ok env hsv, rewriteStep_eq,
          runProc_check_ok _ _ _ _ hrm, runProc_nocheck,
          runProc_check_ok _ _ _ _ ha, runProc_check_ok _ _ _ _ hcm,
          runProc_check_ok _ _ _ _ htg, runProc_check_err _ _ _ _ hut,
          andThen_ok, andThen_error, mapTrace_mk, coreTrace, pushTrace,
          hcl, hl, hr, hse, hd, hch, hb, hpu, hup]
      case pos =>
        refine Or.inr ⟨hcl, ?_⟩
        simp [releaseMain, is_git_clean_eq, get_git_tags_local_eq,
          get_git_tags_remote_ok env hlr, setupExistsCheck_eq,
          read_version_ok env hsv, rewriteStep_eq,
          runProc_check_ok _ _ _ _ hrm, runProc_nocheck,
          runProc_check_ok _ _ _ _ ha, runProc_check_ok _ _ _ _ hcm,
          runProc_check_ok _ _ _ _ htg, runProc_check_ok _ _ _ _ hut,
          andThen_ok, andThen_error, mapTrace_mk, coreTrace, pushTrace,
          uploadTrace, hcl, hl, hr, hse, hd, hch, hb, hpu, hup]
    | false =>
      refine Or.inr ⟨hcl, ?_⟩
      simp [releaseMain, is_git_clean_eq, get_git_tags_local_eq,
        get_git_tags_remote_ok env hlr, setupExistsCheck_eq,
        read_version_ok env hsv, rewriteStep_eq,
        runProc_check_ok _ _ _ _ hrm, runProc_nocheck,
        runProc_check_ok _ _ _ _ ha, runProc_check_ok _ _ _ _ hcm,
        runProc_check_ok _ _ _ _ htg, andThen_ok, andThen_error, mapTrace_mk,
        coreTrace, pushTrace, uploadTrace,
        hcl, hl, hr, hse, hd, hch, hb, hpu, hup]

theorem release_cases (opts : Options) (env : Env) :
    (opts.version.take 1 = ['v'] ∧
      release opts env = (.error (.domain versionMsg), [])) ∨
    (opts.upload = true ∧ env.whichTwine.exitCode ≠ 0 ∧
      release opts env = (.error (.domain twineMsg), [.whichTwine false])) ∨
    (∃ w, opts.only_on = some w ∧ w ≠ [] ∧ env.revParse.exitCode ≠ 0 ∧
      release opts env =
        (.error (.processFailure revParseArgv env.revParse.exitCode),
         twineTrace opts ++ [.revParse true])) ∨
    (∃ w, opts.only_on = some w ∧ w ≠ [] ∧ env.revParse.exitCode = 0 ∧
      pyStrip env.revParse.stdout ≠ w ∧
      release opts env =
        (.error (.domain (branchMsg w (pyStrip env.revParse.stdout))),
         twineTrace opts ++ [.revParse true])) ∨
    ((opts.upload = true → env.whichTwine.exitCode = 0) ∧ branchPass opts env ∧
      release opts env =
        mapTrace (twineTrace opts ++ branchTrace opts) (releaseMain opts env)) := by
  by_cases hv : opts.version.take 1 = ['v']
  · exact Or.inl ⟨hv, by simp [release, hv]⟩
  right
  by_cases htf : opts.upload = true ∧ env.whichTwine.exitCode ≠ 0
  · refine Or.inl ⟨htf.1, htf.2, ?_⟩
    rw [release, if_neg hv, twineStage_err opts env htf.1 htf.2, andThen_error]
  right
  have htw : opts.upload = true → env.whichTwine.exitCode = 0 := by
    intro h
    by_contra h2
    exact htf ⟨h, h2⟩
  by_cases hbp : branchPass opts env
  case pos =>
    exact Or.inr (Or.inr ⟨htw, hbp, release_run opts env hv htw hbp⟩)
  case neg =>
    rcases ho : opts.only_on with _ | w
    · exact absurd (by simp [branchPass, ho]) hbp
    · have hw : w ≠ [] := by
        intro h
        exact hbp (by simp [branchPass, ho, h])
      by_cases hrp : env.revParse.exitCode = 0
      · have hbm : pyStrip env.revParse.stdout ≠ w := by
          intro h
          refine hbp ?_
          simp only [branchPass, ho]
          exact Or.inr ⟨hrp, h⟩
        refine Or.inr (Or.inl ⟨w, rfl, hw, hrp, hbm, ?_⟩)
        rw [release, if_neg hv, twineStage_pass opts env htw, andThen_ok,
          branchStage_mismatch opts env w ho hw hrp hbm, andThen_error, mapTrace_mk]
      · refine Or.inl ⟨w, rfl, hw, hrp, ?_⟩
        rw [release, if_neg hv, twineStage_pass opts env htw, andThen_ok,
          branchStage_proc_err opts env w ho hw hrp, andThen_error, mapTrace_mk]

/-! ## Claim C3: a version beginning with v is rejected up front -/

/-- C3: for every options structure whose version string begins with `v`,
`release` fails immediately with the `DomainError` message
`A version can\x27t begin with a v`, with an empty effect trace: no file is
touched and no external process is spawned. -/
theorem c3_v_version_rejected (opts : Options) (env : Env)
    (h : opts.version.take 1 = ['v']) :
    release opts env = (.error (.domain versionMsg), []) := by
  simp [release, h]

/-- C3 witness: version string `v2.0`. -/
theorem c3_v_version_rejected_witness :
    release ⟨"v2.0".data, none, false, false⟩ witnessEnv =
      (.error (.domain versionMsg), []) :=
  c3_v_version_rejected ⟨"v2.0".data, none, false, false⟩ witnessEnv (by decide)

/-! ## Trace kind helpers -/

theorem twineTrace_kinds (opts : Options) :
    ∀ ev ∈ twineTrace opts, kindOf ev = .whichTwineK := by
  cases h : opts.upload <;> simp [twineTrace, h, kindOf]

theorem branchTrace_kinds (opts : Options) :
    ∀ ev ∈ branchTrace opts, kindOf ev = .revParseK := by
  cases h : opts.only_on with
  | none => simp [branchTrace, h]
  | some w =>
    by_cases hw : w = [] <;> simp [branchTrace, h, hw, kindOf]

theorem kinds_excluded (tr : List Event) (ks : List EKind)
    (h : ∀ ev ∈ tr, kindOf ev ∈ ks) :
    ∀ k, k ∉ ks → k ∉ tr.map kindOf := by
  intro k hk hmem
  rcases List.mem_map.1 hmem with ⟨ev, hev, rfl⟩
  exact hk (h ev hev)

/-! ## Claim C5: a dirty working tree creates no commit and no tag -/

/-- C5: when the working tree has uncommitted changes (and the branch query,
the only fallible inspection that can run before the cleanliness check,
functions), `release` aborts with a `DomainError`; the commit, tag and
rewrite steps are never reached — every performed effect is one of the three
read-only inspection queries, so repository state is untouched. -/
theorem c5_dirty_tree_no_commit (opts : Options) (env : Env)
    (hdirty : env.diffIndex.exitCode ≠ 0)
    (hgit : env.revParse.exitCode = 0) :
    (∃ m, (release opts env).1 = .error (.domain m)) ∧
    (∀ ev ∈ (release opts env).2,
      kindOf ev = .whichTwineK ∨ kindOf ev = .revParseK ∨ kindOf ev = .diffIndexK) ∧
    EKind.commitK ∉ (release opts env).2.map kindOf ∧
    EKind.tagK ∉ (release opts env).2.map kindOf ∧
    EKind.rewriteK ∉ (release opts env).2.map kindOf := by
  have main :
      (∃ m, (release opts env).1 = .error (.domain m)) ∧
      (∀ ev ∈ (release opts env).2,
        kindOf ev = .whichTwineK ∨ kindOf ev = .revParseK ∨ kindOf ev = .diffIndexK) := by
    rcases release_cases opts env with ⟨h1, h2⟩ | ⟨h1, h2, h3⟩ |
      ⟨w, h1, h2, h3, h4⟩ | ⟨w, h1, h2, h3, h4, h5⟩ | ⟨h1, h2, h3⟩
    · rw [h2]
      exact ⟨⟨versionMsg, rfl⟩, by simp⟩
    · rw [h3]
      refine ⟨⟨twineMsg, rfl⟩, ?_⟩
      intro ev hev
      simp only [List.mem_singleton] at hev
      subst hev
      simp [kindOf]
    · exact absurd hgit h3
    · rw [h5]
      refine ⟨⟨branchMsg w (pyStrip env.revParse.stdout), rfl⟩, ?_⟩
      intro ev hev
      rcases List.mem_append.1 hev with hev | hev
      · exact Or.inl (twineTrace_kinds opts ev hev)
      · simp only [List.mem_singleton] at hev
        subst hev
        simp [kindOf]
    · rcases releaseMain_cases opts env with ⟨m1, m2⟩ | ⟨m1, _⟩ | ⟨m1, _⟩ |
        ⟨m1, _⟩ | ⟨m1, _⟩ | ⟨m1, _⟩ | ⟨m1, _⟩ | ⟨m1, _⟩ | ⟨m1, _⟩ | ⟨m1, _⟩ |
        ⟨m1, _⟩ | ⟨m1, _⟩ | ⟨m1, _⟩ | ⟨m1, _, _⟩ | ⟨m1, _, _⟩ | ⟨m1, _⟩
      case inl.intro =>
        rw [h3, m2, mapTrace_mk]
        refine ⟨⟨uncommitedMsg, rfl⟩, ?_⟩
        intro ev hev
        rcases List.mem_append.1 hev with hev | hev
        · rcases List.mem_append.1 hev with hev | hev
          · exact Or.inl (twineTrace_kinds opts ev hev)
          · exact Or.inr (Or.inl (branchTrace_kinds opts ev hev))
        · simp only [List.mem_singleton] at hev
          subst hev
          simp [kindOf]
      all_goals exact absurd m1 hdirty
  refine ⟨main.1, main.2, ?_, ?_, ?_⟩ <;>
    exact kinds_excluded _ [.whichTwineK, .revParseK, .diffIndexK]
      (by intro ev hev; simpa using main.2 ev hev) _ (by decide)

/-- C5 witness: a dirty tree under plain options. -/
theorem c5_dirty_tree_no_commit_witness :
    ((∃ m, (release witnessOpts dirtyEnv).1 = .error (.domain m)) ∧
      (∀ ev ∈ (release witnessOpts dirtyEnv).2,
        kindOf ev = .whichTwineK ∨ kindOf ev = .revParseK ∨ kindOf ev = .diffIndexK) ∧
      EKind.commitK ∉ (release witnessOpts dirtyEnv).2.map kindOf ∧
      EKind.tagK ∉ (release witnessOpts dirtyEnv).2.map kindOf ∧
      EKind.rewriteK ∉ (release witnessOpts dirtyEnv).2.map kindOf) :=
  c5_dirty_tree_no_commit witnessOpts dirtyEnv (by decide) (by decide)

/-! ## Claim C4: strict check order, fail-fast -/

theorem twineTrace_captured (opts : Options) :
    (twineTrace opts).all capturedOk = true := by
  cases h : opts.upload <;> simp [twineTrace, h] <;> decide

theorem branchTrace_captured (opts : Options) :
    (branchTrace opts).all capturedOk = true := by
  cases h : opts.only_on with
  | none => simp [branchTrace, h]
  | some w => by_cases hw : w = [] <;> simp [branchTrace, h, hw] <;> decide

theorem pushTrace_captured (opts : Options) :
    (pushTrace opts).all capturedOk = true := by
  cases h : opts.push <;> simp [pushTrace, h] <;> decide

theorem uploadTrace_captured (opts : Options) :
    (uploadTrace opts).all capturedOk = true := by
  cases h : opts.upload <;> simp [uploadTrace, h] <;> decide

theorem coreTrace_captured (opts : Options) (env : Env) :
    (coreTrace opts env).all capturedOk = true := rfl

theorem release_all_capturedOk (opts : Options) (env : Env) :
    ((release opts env).2).all capturedOk = true := by
  rcases release_cases opts env with ⟨h1, h2⟩ | ⟨h1, h2, h3⟩ |
    ⟨w, h1, h2, h3, h4⟩ | ⟨w, h1, h2, h3, h4, h5⟩ | ⟨h1, h2, h3⟩
  · rw [h2]
    rfl
  · rw [h3]
    rfl
  · rw [h4]
    simp [List.all_append, twineTrace_captured]
    decide
  · rw [h5]
    simp [List.all_append, twineTrace_captured]
    decide
  · rcases releaseMain_cases opts env with ⟨m1, m2⟩ | ⟨m1, m2, m3⟩ |
      ⟨m1, m2, m3, m4⟩ | ⟨m1, m2, m3, m4, m5⟩ | ⟨m1, m2, m3, m4, m5, m6⟩ |
      ⟨m1, m2, m3⟩ | ⟨m1, m2, m3⟩ | ⟨m1, m2, m3⟩ | ⟨m1, m2, m3⟩ |
      ⟨m1, m2, m3⟩ | ⟨m1, m2, m3⟩ | ⟨m1, m2, m3⟩ | ⟨m1, m2, m3⟩ |
      ⟨m1, m2, m3, m4⟩ | ⟨m1, m2, m3, m4⟩ | ⟨m1, m2⟩
    · rw [h3, m2, mapTrace_mk]
      simp [List.all_append, twineTrace_captured, branchTrace_captured]
      decide
    · rw [h3, m3, mapTrace_mk]
      simp [List.all_append, twineTrace_captured, branchTrace_captured]
      decide
    · rw [h3, m4, mapTrace_mk]
      simp [List.all_append, twineTrace_captured, branchTrace_captured]
      decide
    · rw [h3, m5, mapTrace_mk]
      simp [List.all_append, twineTrace_captured, branchTrace_captured]
      decide
    · rw [h3, m6, mapTrace_mk]
      simp [List.all_append, twineTrace_captured, branchTrace_captured]
      decide
    · rw [h3, m3, mapTrace_mk]
      simp [List.all_append, twineTrace_captured, branchTrace_captured]
      decide
    · rw [h3, m3, mapTrace_mk]
      simp [List.all_append, twineTrace_captured, branchTrace_captured]
      decide
    · rw [h3, m3, mapTrace_mk]
      simp [List.all_append, twineTrace_captured, branchTrace_captured,
        List.all_cons, capturedOk, capturesOf, kindOf]
    · rw [h3, m3, mapTrace_mk]
      simp [List.all_append, twineTrace_captured, branchTrace_captured,
        List.all_cons, capturedOk, capturesOf, kindOf]
    · rw [h3, m3, mapTrace_mk]
      simp [List.all_append, twineTrace_captured, branchTrace_captured,
        List.all_cons, capturedOk, capturesOf, kindOf]
    · rw [h3, m3, mapTrace_mk]
      simp [List.all_append, twineTrace_captured, branchTrace_captured,
        List.all_cons, capturedOk, capturesOf, kindOf]
    · rw [h3, m3, mapTrace_mk]
      simp [List.all_append, twineTrace_captured, branchTrace_captured,
        List.all_cons, capturedOk, capturesOf, kindOf]
    · rw [h3, m3, mapTrace_mk]
      simp [List.all_append, twineTrace_captured, branchTrace_captured,
        coreTrace_captured]
    · rw [h3, m4, mapTrace_mk]
      simp [List.all_append, twineTrace_captured, branchTrace_captured,
        coreTrace_captured]
      decide
    · rw [h3, m4, mapTrace_mk]
      simp [List.all_append, twineTrace_captured, branchTrace_captured,
        coreTrace_captured, pushTrace_captured]
      decide
    · rw [h3, m2, mapTrace_mk]
      simp [List.all_append, twineTrace_captured, branchTrace_captured,
        coreTrace_captured, pushTrace_captured, uploadTrace_captured]

/-- C9 counterexample: the claim says the build step does not capture child
output, but the source runs the distribution build with `stdout=PIPE`: in a
concrete successful run, the build event carries the captured flag. -/
theorem c9_counterexample :
    ¬ (∀ (opts : Options) (env : Env), ∀ ev ∈ (release opts env).2,
        (capturesOf ev = some true ↔
          kindOf ev ∈ [EKind.revParseK, .showRefK, .lsRemoteK, .diffIndexK,
            .setupVersionK])) := by
  intro h
  have hmem : Event.buildDist true ∈ (release witnessOpts witnessEnv).2 := by decide
  have h2 := (h witnessOpts witnessEnv _ hmem).1 (by decide)
  revert h2
  decide

/-- C9 (amended): an invocation of `release` captures a child process's
stdout exactly when the process is one of the five inspection queries
(branch, local tags, remote tags, cleanliness, declared version) OR the
distribution build, whose output is captured and discarded; the rm, add,
commit, tag, push and upload invocations let output pass through. -/
theorem c9_capture_discipline (opts : Options) (env : Env) :
    ∀ ev ∈ (release opts env).2,
      (capturesOf ev = some true ↔
        kindOf ev ∈ [EKind.revParseK, .showRefK, .lsRemoteK, .diffIndexK,
          .setupVersionK, .buildK]) := by
  intro ev hev
  have h := release_all_capturedOk opts env
  rw [List.all_eq_true] at h
  have h2 := h ev hev
  rw [capturedOk] at h2
  exact iff_of_eq (of_decide_eq_true h2)

/-- C9 witness: the build event of a concrete successful run captures its
output. -/
theorem c9_capture_discipline_witness :
    Event.buildDist true ∈ (release witnessOpts witnessEnv).2 ∧
    (capturesOf (Event.buildDist true) = some true ↔
      kindOf (Event.buildDist true) ∈ [EKind.revParseK, .showRefK, .lsRemoteK,
        .diffIndexK, .setupVersionK, .buildK]) :=
  ⟨by decide,
   c9_capture_discipline witnessOpts witnessEnv (Event.buildDist true) (by decide)⟩

/-! ## Claim C8: CLI exit codes and the fatal stderr line -/

/-- C8: the CLI exits 0 on success, 2 on an argument-parsing error
(spec-modelled behavior of the external argument parser), and 1 on every
other failure; for an `Error` or `CalledProcessError` it prints exactly one
fatal line, the argument of a single stderr print call of the form
`\x0a💥  Fatal: message\x0a`, before exiting 1; on an interruption signal it
exits 1 printing nothing. -/
theorem c8_exit_codes (p : ParseResult) (interrupted : Bool) (env : Env) :
    (p = .parseError →
      main p interrupted env = parseFailureOutcome ∧
      (main p interrupted env).exitCode = 2) ∧
    (∀ opts, p = .parsed opts → interrupted = true →
      main p interrupted env = ⟨1, []⟩) ∧
    (∀ opts, p = .parsed opts → interrupted = false →
      ((release opts env).1 = .ok () → main p interrupted env = ⟨0, []⟩) ∧
      (∀ e, (release opts env).1 = .error e →
        main p interrupted env = ⟨1, [fatalLine (errText e)]⟩)) := by
  refine ⟨?_, ?_, ?_⟩
  · rintro rfl
    exact ⟨rfl, rfl⟩
  · rintro opts rfl rfl
    rfl
  · rintro opts rfl rfl
    constructor
    · intro h
      simp [main, h]
    · intro e h
      simp [main, h]

/-- C8 witness: a run rejected by the version-format check exits 1 with the
single fatal line. -/
theorem c8_exit_codes_witness :
    main (.parsed ⟨"v2.0".data, none, false, false⟩) false witnessEnv =
      ⟨1, [fatalLine (errText (.domain versionMsg))]⟩ :=
  ((c8_exit_codes (.parsed ⟨"v2.0".data, none, false, false⟩) false
      witnessEnv).2.2 ⟨"v2.0".data, none, false, false⟩ rfl rfl).2
    (.domain versionMsg) (by decide)

end Pyrelease
